import Mathlib

/-
  Shallow embedding of the TaskFlow priority scheduler found in
  src/src/main.rs.

  Modelling decisions, each tied to the Rust source:

  * TaskError  mirrors the enum TaskError (lines 10-15).
  * Priority   mirrors the enum Priority (lines 30-35); the Rust code
    derives only PartialEq, an order exists solely through the key
    function priority_val inside add_task (lines 85-89), which we lift
    to a top level definition.
  * SimpleTask mirrors struct SimpleTask (lines 44-47); its execute
    (lines 51-59) first checks duration_secs > 5, and only in the
    non-error branch calls thread::sleep for duration_secs seconds.
    We model execute as returning the Result plus the number of
    seconds slept; the early-return error branch sleeps 0 seconds.
    The println calls are console output, excluded from the core by
    the spec, and carry no data the claims mention.
  * A value of type Box<dyn Executable> is observed by the scheduler
    only through get_name() and the one call to execute(); both are
    deterministic for a given task value, so the trait object is
    modelled by the record DynTask of those two observations.
  * The scheduler state Vec<(Priority, Box<dyn Executable>)> becomes
    List Entry; Vec::push is append at the right end, Vec::pop removes
    the right-most element.
  * Vec::sort_by is, by its documented contract, a stable sort with
    respect to the comparator.  The comparator in add_task (lines
    84-92) compares only the key priority_val, which takes the three
    values 0, 1, 2, in reverse: priority_val(b).cmp(priority_val(a)),
    so the vector ends up ordered by strictly descending key.  A
    stable sort by a three-valued key, descending, is exactly the
    concatenation of the key-2 run, the key-1 run and the key-0 run,
    each kept in its original relative order; sortTasks below is that
    concatenation of filters.
  * run_all (lines 96-126) spawns one worker thread, immediately joins
    it, and the worker holds the single lock for the whole drain loop;
    the observable behaviour is therefore the sequential loop body:
    while pop yields an entry, print the priority and name, execute,
    and print a success or failure line.  We record per iteration the
    popped priority, the task name, and the outcome of execute, as a
    RunRecord; the success and failure console lines are the Signal
    values derived from a RunRecord.
  * The Mutex never poisons in the modelled executions (lock().unwrap()
    would only panic after a previous panic), so locking is identity.
-/

namespace TaskFlow

/-- The closed error enumeration of the program, enum TaskError. -/
inductive TaskError where
  | ExecutionError (msg : String)
  | TimeOut
  | NotFound
deriving DecidableEq, Repr

/-- The closed priority enumeration, enum Priority. -/
inductive Priority where
  | High
  | Medium
  | Low
deriving DecidableEq, Repr

/-- The key function used by the comparator inside Scheduler::add_task. -/
def priority_val : Priority → Nat
  | Priority.High => 0
  | Priority.Medium => 1
  | Priority.Low => 2

/-- The rejection message built in SimpleTask::execute. -/
def rejectMsg : String := "任务需要运行时间过长, 系统拒绝"

/-- struct SimpleTask: a name and a declared duration in seconds. -/
structure SimpleTask where
  name : String
  duration_secs : Nat
deriving DecidableEq, Repr

/-- SimpleTask::execute.  First component: the returned
Result<(), TaskError>.  Second component: the seconds spent in
thread::sleep; the error branch returns before sleeping, hence 0. -/
def SimpleTask.execute (t : SimpleTask) : Except TaskError Unit × Nat :=
  if t.duration_secs > 5 then
    (Except.error (TaskError.ExecutionError rejectMsg), 0)
  else
    (Except.ok (), t.duration_secs)

/-- SimpleTask::get_name returns a copy of the name field. -/
def SimpleTask.get_name (t : SimpleTask) : String := t.name

instance : DecidableEq (Except TaskError Unit) := fun a b =>
  match a, b with
  | Except.ok (), Except.ok () => isTrue rfl
  | Except.ok (), Except.error _ => isFalse Except.noConfusion
  | Except.error _, Except.ok () => isFalse Except.noConfusion
  | Except.error e1, Except.error e2 =>
    match decEq e1 e2 with
    | isTrue h => isTrue (congrArg Except.error h)
    | isFalse h => isFalse (fun hh => h (Except.error.inj hh))

/-- Observable behaviour of a Box<dyn Executable> held by the
scheduler: the value of get_name() and the Result of the single
execute() call made while draining. -/
structure DynTask where
  name : String
  execResult : Except TaskError Unit
deriving DecidableEq, Repr

/-- Boxing a SimpleTask as a trait object. -/
def SimpleTask.toDyn (t : SimpleTask) : DynTask :=
  { name := t.get_name, execResult := t.execute.1 }

/-- One element of the scheduler vector. -/
abbrev Entry := Priority × DynTask

/-- The scheduler state: Vec<(Priority, Box<dyn Executable>)>. -/
abbrev Tasks := List Entry

/-- Key test used to split the vector into the three stable runs. -/
def pv (v : Nat) (e : Entry) : Bool := priority_val e.1 == v

/-- The stable sort performed by tasks.sort_by in add_task: descending
by the three-valued key priority_val, equal keys keeping their
relative order, which is exactly the key-2 entries, then the key-1
entries, then the key-0 entries. -/
def sortTasks (l : Tasks) : Tasks :=
  l.filter (pv 2) ++ l.filter (pv 1) ++ l.filter (pv 0)

/-- Scheduler::add_task: push the new entry at the right end, then
re-sort the whole vector. -/
def add_task (tasks : Tasks) (priority : Priority) (task : DynTask) : Tasks :=
  sortTasks (tasks ++ [(priority, task)])

/-- The scheduler state reached from Scheduler::new() by a sequence of
add_task calls, one per element of ops, in order. -/
def buildQueue (ops : List Entry) : Tasks :=
  ops.foldl (fun acc e => add_task acc e.1 e.2) []

/-- Vec::pop: remove and return the right-most element. -/
def pop : List α → Option (α × List α)
  | [] => none
  | a :: l => some ((a :: l).getLast (List.cons_ne_nil a l), (a :: l).dropLast)

/-- What one iteration of the drain loop in run_all observes about the
popped entry: its priority, the name printed before execution, and the
outcome of execute. -/
structure RunRecord where
  priority : Priority
  name : String
  outcome : Except TaskError Unit
deriving DecidableEq, Repr

/-- The record produced when a given entry is drained. -/
def mkRecord (e : Entry) : RunRecord :=
  { priority := e.1, name := e.2.name, outcome := e.2.execResult }

/-- Scheduler::run_all: the worker thread repeatedly pops the last
entry of the vector and executes it, until pop returns None; the loop
body is otherwise straight-line, so the run is the list of records in
pop order. -/
def run_all (tasks : Tasks) : List RunRecord :=
  match h : pop tasks with
  | none => []
  | some (e, rest) => mkRecord e :: run_all rest
termination_by tasks.length
decreasing_by
  cases tasks with
  | nil => simp [pop] at h
  | cons a l =>
    simp only [pop, Option.some.injEq, Prod.mk.injEq] at h
    rw [← h.2]
    simp only [List.length_dropLast, List.length_cons]
    omega

/-- The per-task success or failure console line emitted by the match
on task.execute() inside the drain loop. -/
inductive Signal where
  | success (name : String)
  | failure (name : String) (err : TaskError)
deriving DecidableEq, Repr

/-- The name carried by an outcome signal. -/
def Signal.name : Signal → String
  | Signal.success n => n
  | Signal.failure n _ => n

/-- The outcome signal of one drain-loop iteration. -/
def RunRecord.signal (r : RunRecord) : Signal :=
  match r.outcome with
  | Except.ok _ => Signal.success r.name
  | Except.error e => Signal.failure r.name e

/-- The outcome signals of a whole run, one per drained entry. -/
def runSignals (tasks : Tasks) : List Signal :=
  (run_all tasks).map RunRecord.signal

/-- The drain loop of run_all with an explicit iteration budget:
none means the budget was exhausted while entries remained. -/
def drainFuel : Nat → Tasks → Option (List RunRecord)
  | fuel, tasks =>
    match pop tasks with
    | none => some []
    | some (e, rest) =>
      match fuel with
      | 0 => none
      | n + 1 => (drainFuel n rest).map (fun rs => mkRecord e :: rs)

/-- The four tasks of the scenario in the spec, section 8. -/
def taskA : SimpleTask := { name := "A", duration_secs := 2 }

def taskB : SimpleTask := { name := "B", duration_secs := 3 }

def taskC : SimpleTask := { name := "C", duration_secs := 1 }

def taskD : SimpleTask := { name := "D", duration_secs := 20 }

/-- The scenario insertion sequence: (High, A), (Low, B), (Medium, C),
(High, D). -/
def scenarioOps : List Entry :=
  [(Priority.High, taskA.toDyn), (Priority.Low, taskB.toDyn),
   (Priority.Medium, taskC.toDyn), (Priority.High, taskD.toDyn)]

/-- The trace of running the scenario queue. -/
def scenarioTrace : List RunRecord := run_all (buildQueue scenarioOps)

/-- A small concrete queue holding one failing and one succeeding
entry, used to instantiate the failure-isolation theorem. -/
def failQueue : Tasks :=
  [(Priority.Low, taskB.toDyn), (Priority.High, taskD.toDyn)]

/- ------------------------------------------------------------------
   Helper lemmas about pop, run_all and the stable sort.
   ------------------------------------------------------------------ -/

theorem pop_eq_getLast? (l : List α) :
    pop l = l.getLast?.map (fun a => (a, l.dropLast)) := by
  cases l with
  | nil => rfl
  | cons b m =>
    rw [List.getLast?_eq_getLast (b :: m) (List.cons_ne_nil b m)]
    rfl

theorem pop_concat (l : List α) (a : α) : pop (l ++ [a]) = some (a, l) := by
  rw [pop_eq_getLast?, List.getLast?_concat]
  simp

theorem run_all_nil : run_all [] = [] := by
  rw [run_all]
  rfl

theorem run_all_concat (l : Tasks) (e : Entry) :
    run_all (l ++ [e]) = mkRecord e :: run_all l := by
  rw [run_all]
  split
  · next heq =>
    rw [pop_concat] at heq
    cases heq
  · next f rest heq =>
    rw [pop_concat] at heq
    simp only [Option.some.injEq, Prod.mk.injEq] at heq
    rw [← heq.1, ← heq.2]

theorem run_all_eq_reverse_map (l : Tasks) : run_all l = l.reverse.map mkRecord := by
  induction l using List.reverseRecOn with
  | nil => exact run_all_nil
  | append_singleton l e ih =>
    rw [run_all_concat, ih]
    simp

theorem drainFuel_length (l : Tasks) : drainFuel l.length l = some (run_all l) := by
  induction l using List.reverseRecOn with
  | nil => rw [run_all_nil]; rfl
  | append_singleton l e ih =>
    rw [run_all_concat]
    have hlen : (l ++ [e]).length = l.length + 1 := by simp
    rw [hlen, drainFuel, pop_concat]
    simp only []
    rw [ih]
    rfl

theorem filter_pv_filter_pv (v w : Nat) (l : Tasks) :
    (l.filter (pv w)).filter (pv v) = if v = w then l.filter (pv w) else [] := by
  rw [List.filter_filter]
  by_cases hvw : v = w
  · subst hvw
    rw [if_pos rfl]
    exact List.filter_congr fun e _ => Bool.and_self (pv v e)
  · rw [if_neg hvw]
    rw [List.filter_eq_nil_iff]
    intro e _ h
    rw [Bool.and_eq_true] at h
    have h1 : priority_val e.1 = v := by simpa [pv] using h.1
    have h2 : priority_val e.1 = w := by simpa [pv] using h.2
    exact hvw (h1 ▸ h2)

theorem filter_pv2_sortTasks (l : Tasks) :
    (sortTasks l).filter (pv 2) = l.filter (pv 2) := by
  simp only [sortTasks, List.filter_append, filter_pv_filter_pv]
  simp

theorem filter_pv1_sortTasks (l : Tasks) :
    (sortTasks l).filter (pv 1) = l.filter (pv 1) := by
  simp only [sortTasks, List.filter_append, filter_pv_filter_pv]
  simp

theorem filter_pv0_sortTasks (l : Tasks) :
    (sortTasks l).filter (pv 0) = l.filter (pv 0) := by
  simp only [sortTasks, List.filter_append, filter_pv_filter_pv]
  simp

theorem sortTasks_sortTasks_append (l m : Tasks) :
    sortTasks (sortTasks l ++ m) = sortTasks (l ++ m) := by
  show (sortTasks l ++ m).filter (pv 2) ++ (sortTasks l ++ m).filter (pv 1)
      ++ (sortTasks l ++ m).filter (pv 0)
    = (l ++ m).filter (pv 2) ++ (l ++ m).filter (pv 1) ++ (l ++ m).filter (pv 0)
  simp only [List.filter_append, filter_pv2_sortTasks, filter_pv1_sortTasks,
    filter_pv0_sortTasks]

theorem foldl_add_task_sorted (ops : List Entry) : ∀ acc : Tasks,
    ops.foldl (fun acc e => add_task acc e.1 e.2) (sortTasks acc)
      = sortTasks (acc ++ ops) := by
  induction ops with
  | nil => intro acc; simp
  | cons e ops ih =>
    intro acc
    obtain ⟨p, t⟩ := e
    show ops.foldl (fun acc e => add_task acc e.1 e.2) (add_task (sortTasks acc) p t)
        = sortTasks (acc ++ (p, t) :: ops)
    have step : add_task (sortTasks acc) p t = sortTasks (acc ++ [(p, t)]) :=
      sortTasks_sortTasks_append acc [(p, t)]
    rw [step, ih (acc ++ [(p, t)]), List.append_assoc]
    rfl

theorem buildQueue_eq_sortTasks (ops : List Entry) : buildQueue ops = sortTasks ops := by
  have h := foldl_add_task_sorted ops []
  rw [List.nil_append] at h
  exact h

theorem sortTasks_perm (l : Tasks) : (sortTasks l).Perm l := by
  have hg1 : (l.filter (fun e => !(pv 2 e))).filter (pv 1) = l.filter (pv 1) := by
    rw [List.filter_filter]
    exact List.filter_congr fun e _ => by rcases e with ⟨q, s⟩; cases q <;> rfl
  have hg0 : (l.filter (fun e => !(pv 2 e))).filter (fun e => !(pv 1 e))
      = l.filter (pv 0) := by
    rw [List.filter_filter]
    exact List.filter_congr fun e _ => by rcases e with ⟨q, s⟩; cases q <;> rfl
  have h1 : (l.filter (pv 1) ++ l.filter (pv 0)).Perm (l.filter (fun e => !(pv 2 e))) := by
    rw [← hg1, ← hg0]
    exact List.filter_append_perm _ _
  have h2 : (sortTasks l).Perm (l.filter (pv 2) ++ l.filter (fun e => !(pv 2 e))) := by
    show (l.filter (pv 2) ++ l.filter (pv 1) ++ l.filter (pv 0)).Perm _
    rw [List.append_assoc]
    exact List.Perm.append_left _ h1
  exact h2.trans (List.filter_append_perm _ _)

theorem pairwise_const_bucket (v : Nat) (m : Tasks)
    (hm : ∀ e ∈ m, priority_val e.1 = v) :
    m.Pairwise (fun a b : Entry => priority_val b.1 ≤ priority_val a.1) := by
  induction m with
  | nil => exact List.Pairwise.nil
  | cons a m ih =>
    refine List.Pairwise.cons (fun b hb => ?_)
      (ih fun e he => hm e (List.mem_cons_of_mem _ he))
    rw [hm a (List.mem_cons_self a m), hm b (List.mem_cons_of_mem _ hb)]

theorem sortTasks_pairwise (l : Tasks) :
    (sortTasks l).Pairwise (fun a b : Entry => priority_val b.1 ≤ priority_val a.1) := by
  have hmem : ∀ v : Nat, ∀ e ∈ l.filter (pv v), priority_val e.1 = v := by
    intro v e he
    have h := (List.mem_filter.mp he).2
    simpa [pv] using h
  show (l.filter (pv 2) ++ l.filter (pv 1) ++ l.filter (pv 0)).Pairwise
    (fun a b : Entry => priority_val b.1 ≤ priority_val a.1)
  rw [List.pairwise_append]
  refine ⟨?_, pairwise_const_bucket 0 _ (hmem 0), ?_⟩
  · rw [List.pairwise_append]
    refine ⟨pairwise_const_bucket 2 _ (hmem 2), pairwise_const_bucket 1 _ (hmem 1), ?_⟩
    intro a ha b hb
    rw [hmem 2 a ha, hmem 1 b hb]
    omega
  · intro a ha b hb
    rw [hmem 0 b hb]
    exact Nat.zero_le _

/- ------------------------------------------------------------------
   Claim theorems.
   ------------------------------------------------------------------ -/

/-- Claim C1: for every sequence of add_task calls followed by one
run_all, the entries are drained and executed in non-increasing
priority order: along the trace the key priority_val never decreases
(High has key 0, Medium 1, Low 2), so every High entry runs before
every Medium entry and every Medium entry before every Low entry. -/
theorem C1_run_all_priority_order (ops : List Entry) :
    (run_all (buildQueue ops)).Pairwise
      (fun r s => priority_val r.priority ≤ priority_val s.priority) := by
  rw [buildQueue_eq_sortTasks, run_all_eq_reverse_map, List.pairwise_map,
    List.pairwise_reverse]
  exact sortTasks_pairwise ops

/-- Claim C2, counterexample: the claim says that after an add_task
call entries of higher priority precede entries of equal or lower
priority in the stored vector.  Adding (High, A) and then (Low, B)
leaves the vector [(Low, B), (High, A)], where the Low entry precedes
the High entry, so the claimed order fails at this input. -/
theorem C2_counterexample :
    ¬ (add_task (add_task [] Priority.High taskA.toDyn) Priority.Low taskB.toDyn).Pairwise
        (fun a b : Entry => priority_val a.1 ≤ priority_val b.1) := by
  intro h
  rw [show add_task (add_task [] Priority.High taskA.toDyn) Priority.Low taskB.toDyn
      = [(Priority.Low, taskB.toDyn), (Priority.High, taskA.toDyn)] from rfl] at h
  cases h with
  | cons hr _ =>
    have := hr (Priority.High, taskA.toDyn) (List.mem_cons_self _ _)
    simp [priority_val] at this

/-- Claim C2 (amended): after every add_task call the stored vector is
sorted the other way round: the priority_val key is non-increasing
along the vector, so Low entries precede Medium entries precede High
entries, leaving the highest-priority entries at the tail end from
which run_all pops. -/
theorem C2_amended_add_task_sorted (l : Tasks) (p : Priority) (t : DynTask) :
    (add_task l p t).Pairwise
      (fun a b : Entry => priority_val b.1 ≤ priority_val a.1) :=
  sortTasks_pairwise (l ++ [(p, t)])

/-- Claim C3: SimpleTask.execute returns an ExecutionError exactly
when the declared duration exceeds 5; in that case it returns before
the blocking work, sleeping 0 seconds, and otherwise it sleeps the
declared duration and returns Ok. -/
theorem C3_simpleTask_execute (t : SimpleTask) :
    (t.execute.1 = Except.ok () ↔ t.duration_secs ≤ 5) ∧
    (5 < t.duration_secs →
      t.execute = (Except.error (TaskError.ExecutionError rejectMsg), 0)) ∧
    (t.duration_secs ≤ 5 → t.execute = (Except.ok (), t.duration_secs)) := by
  unfold SimpleTask.execute
  by_cases h : t.duration_secs > 5 <;> simp [h] <;> omega

/-- Witness for C3: the scenario task D (duration 20) is rejected with
ExecutionError before sleeping; the scenario task A (duration 2)
sleeps 2 seconds and succeeds. -/
theorem C3_witness :
    SimpleTask.execute taskD = (Except.error (TaskError.ExecutionError rejectMsg), 0) ∧
    SimpleTask.execute taskA = (Except.ok (), 2) :=
  ⟨(C3_simpleTask_execute taskD).2.1 (by decide),
   (C3_simpleTask_execute taskA).2.2 (by decide)⟩

/-- Claim C4: for N add_task calls, run_all emits exactly N outcome
signals, and the multiset of task names in the signals equals the
multiset of names of the added tasks (stated as a permutation of the
name lists). -/
theorem C4_run_all_signal_names (ops : List Entry) :
    (runSignals (buildQueue ops)).length = ops.length ∧
    ((runSignals (buildQueue ops)).map Signal.name).Perm
      (ops.map (fun e => e.2.name)) := by
  have hq : (buildQueue ops).Perm ops := by
    rw [buildQueue_eq_sortTasks]
    exact sortTasks_perm ops
  constructor
  · simp only [runSignals, List.length_map, run_all_eq_reverse_map, List.length_reverse]
    exact hq.length_eq
  · have hmap : (runSignals (buildQueue ops)).map Signal.name
        = (buildQueue ops).reverse.map (fun e => e.2.name) := by
      simp only [runSignals, run_all_eq_reverse_map, List.map_map]
      exact List.map_congr_left fun e _ => by
        rcases e with ⟨p, d⟩
        rcases d with ⟨n, r⟩
        cases r <;> rfl
    rw [hmap]
    exact (((buildQueue ops).reverse_perm).trans hq).map _

/-- Claim C5: an entry whose execute fails is reported as a failure
signal and never aborts the run: every queued entry, the failing one
included, still contributes its record to the trace. -/
theorem C5_failure_isolated (queue : Tasks) (p : Priority) (t : DynTask)
    (err : TaskError) (hmem : (p, t) ∈ queue)
    (herr : t.execResult = Except.error err) :
    Signal.failure t.name err ∈ runSignals queue ∧
    ∀ e ∈ queue, mkRecord e ∈ run_all queue := by
  have hall : ∀ e ∈ queue, mkRecord e ∈ run_all queue := by
    intro e he
    rw [run_all_eq_reverse_map]
    exact List.mem_map_of_mem _ (List.mem_reverse.mpr he)
  refine ⟨?_, hall⟩
  have h1 : mkRecord (p, t) ∈ run_all queue := hall _ hmem
  have h2 : RunRecord.signal (mkRecord (p, t)) = Signal.failure t.name err := by
    simp [RunRecord.signal, mkRecord, herr]
  rw [← h2]
  exact List.mem_map_of_mem _ h1

/-- Witness for C5: in the concrete queue failQueue the failing task D
is reported with its ExecutionError and both entries are executed. -/
theorem C5_witness :
    Signal.failure (SimpleTask.toDyn taskD).name (TaskError.ExecutionError rejectMsg)
        ∈ runSignals failQueue ∧
    ∀ e ∈ failQueue, mkRecord e ∈ run_all failQueue :=
  C5_failure_isolated failQueue Priority.High taskD.toDyn
    (TaskError.ExecutionError rejectMsg)
    (List.mem_cons_of_mem _ (List.mem_cons_self _ _)) rfl

/-- Claim C6: the drain loop of run_all terminates on every finite
queue: a budget of one iteration per queued entry suffices, because
each iteration pops one entry, and on an empty queue the loop stops at
once, whatever budget remains.  Task execution is modelled by a value,
matching the proviso that every execute call itself terminates. -/
theorem C6_run_all_terminates (tasks : Tasks) :
    drainFuel tasks.length tasks = some (run_all tasks) ∧
    ∀ fuel, drainFuel fuel ([] : Tasks) = some [] :=
  ⟨drainFuel_length tasks, fun fuel => by cases fuel <;> rfl⟩

/-- Claim C7: SimpleTask.execute can only fail with the
ExecutionError member of the closed TaskError type; the TimeOut and
NotFound members are never returned. -/
theorem C7_only_execution_error (t : SimpleTask) (e : TaskError)
    (h : t.execute.1 = Except.error e) :
    (∃ msg, e = TaskError.ExecutionError msg) ∧
    e ≠ TaskError.TimeOut ∧ e ≠ TaskError.NotFound := by
  unfold SimpleTask.execute at h
  by_cases h5 : t.duration_secs > 5
  · rw [if_pos h5] at h
    have he : e = TaskError.ExecutionError rejectMsg := by
      simpa using h.symm
    subst he
    refine ⟨⟨rejectMsg, rfl⟩, ?_, ?_⟩ <;> intro hc <;> cases hc
  · rw [if_neg h5] at h
    cases h

/-- Witness for C7: instantiating at task D, whose execute fails,
shows the returned error is an ExecutionError and neither TimeOut nor
NotFound. -/
theorem C7_witness :
    (∃ msg, TaskError.ExecutionError rejectMsg = TaskError.ExecutionError msg) ∧
    TaskError.ExecutionError rejectMsg ≠ TaskError.TimeOut ∧
    TaskError.ExecutionError rejectMsg ≠ TaskError.NotFound :=
  C7_only_execution_error taskD (TaskError.ExecutionError rejectMsg) rfl

/-- Claim C8: running the scenario add (High, A, 2), (Low, B, 3),
(Medium, C, 1), (High, D, 20) drains the two High entries first, then
the Medium entry, then the Low entry; D fails with ExecutionError
because its duration 20 exceeds 5, and A, B, C succeed. -/
theorem C8_scenario :
    scenarioTrace =
      [{ priority := Priority.High, name := "D",
         outcome := Except.error (TaskError.ExecutionError rejectMsg) },
       { priority := Priority.High, name := "A", outcome := Except.ok () },
       { priority := Priority.Medium, name := "C", outcome := Except.ok () },
       { priority := Priority.Low, name := "B", outcome := Except.ok () }] := by
  unfold scenarioTrace
  rw [run_all_eq_reverse_map]
  rfl

/-- Claim C9: add_task neither drops nor duplicates entries: the new
collection is a permutation of the previous collection with the one
new (priority, task) entry appended. -/
theorem C9_add_task_perm (l : Tasks) (p : Priority) (t : DynTask) :
    (add_task l p t).Perm (l ++ [(p, t)]) :=
  sortTasks_perm (l ++ [(p, t)])

/-- Claim C10: entries of equal priority are drained in reverse
insertion order: for every insertion sequence and every priority p,
the drained records of priority p are exactly the p-entries of the
insertion sequence, reversed. -/
theorem C10_lifo_within_priority (ops : List Entry) (p : Priority) :
    (run_all (buildQueue ops)).filter (fun r => r.priority == p)
      = ((ops.filter (fun e => e.1 == p)).reverse).map mkRecord := by
  rw [buildQueue_eq_sortTasks, run_all_eq_reverse_map, List.filter_map,
    List.filter_reverse]
  rw [show List.filter ((fun r : RunRecord => r.priority == p) ∘ mkRecord) (sortTasks ops)
      = (sortTasks ops).filter (pv (priority_val p)) from
    List.filter_congr fun e _ => by rcases e with ⟨q, s⟩; cases q <;> cases p <;> rfl]
  rw [show ops.filter (fun e => e.1 == p) = ops.filter (pv (priority_val p)) from
    List.filter_congr fun e _ => by rcases e with ⟨q, s⟩; cases q <;> cases p <;> rfl]
  have hsort : (sortTasks ops).filter (pv (priority_val p))
      = ops.filter (pv (priority_val p)) := by
    cases p
    · exact filter_pv0_sortTasks ops
    · exact filter_pv1_sortTasks ops
    · exact filter_pv2_sortTasks ops
  rw [hsort]

end TaskFlow
